import Mathlib

/-!
Shallow embedding of the `OrientationArmModel` class from
`src/arms-and-feet/src/physics/physicsHandler.ts` (second file in that
bundle), together with the three.js (r10x) vector, quaternion and Euler
primitives it calls.  JavaScript IEEE doubles are modelled as real numbers;
`performance.now()` is modelled by passing the clock reading as an argument
to `update`.  Division follows the Lean convention `x / 0 = 0`.

Three.js semantics that matter here:
* `Quaternion.inverse()` is `conjugate()` on `this` (mutating, unit length
  assumed), so `let invWristQ = wristQ.inverse()` leaves `wristQ` itself
  holding the conjugate of the slerped value; the later
  `wristPos.applyQuaternion(wristQ)` therefore rotates by that conjugate.
  The embedding reproduces this aliasing faithfully.
* `Vector3.applyQuaternion(q)` maps `v` to `q * v * conj(q)` via the
  expanded product below.
* `Quaternion.slerp(qb, t)` is the r10x implementation with its four early
  branches (t = 0, t = 1, cosHalfTheta >= 1, and the near-parallel linear
  fallback guarded by `Number.EPSILON`).
-/

open Real

noncomputable section

/-- Three.js `Vector3`: three doubles. -/
@[ext] structure Vec3 where
  x : ℝ
  y : ℝ
  z : ℝ

/-- Three.js `Quaternion`: components `(x, y, z, w)`. -/
@[ext] structure Quat where
  x : ℝ
  y : ℝ
  z : ℝ
  w : ℝ

/-- Value of `new Vector3()`. -/
def vZero : Vec3 := ⟨0, 0, 0⟩

/-- Value of `new Quaternion()`: the identity rotation `(0,0,0,1)`. -/
def qIdentity : Quat := ⟨0, 0, 0, 1⟩

namespace Vec3

/-- `Vector3.add`. -/
def add (a b : Vec3) : Vec3 := ⟨a.x + b.x, a.y + b.y, a.z + b.z⟩

/-- `Vector3.multiplyScalar`. -/
def multiplyScalar (a : Vec3) (s : ℝ) : Vec3 := ⟨a.x * s, a.y * s, a.z * s⟩

/-- `Vector3.dot`. -/
def dot (a b : Vec3) : ℝ := a.x * b.x + a.y * b.y + a.z * b.z

/-- `Vector3.lengthSq`. -/
def lengthSq (a : Vec3) : ℝ := a.x * a.x + a.y * a.y + a.z * a.z

/-- `Vector3.applyQuaternion(q)`: the expanded form of `q * v * conj(q)`
exactly as written in three.js. -/
def applyQuaternion (v : Vec3) (q : Quat) : Vec3 :=
  let ix : ℝ := q.w * v.x + q.y * v.z - q.z * v.y
  let iy : ℝ := q.w * v.y + q.z * v.x - q.x * v.z
  let iz : ℝ := q.w * v.z + q.x * v.y - q.y * v.x
  let iw : ℝ := -q.x * v.x - q.y * v.y - q.z * v.z
  ⟨ix * q.w + iw * -q.x + iy * -q.z - iz * -q.y,
   iy * q.w + iw * -q.y + iz * -q.x - ix * -q.z,
   iz * q.w + iw * -q.z + ix * -q.y - iy * -q.x⟩

end Vec3

/-- Three.js `_Math.clamp(value, min, max) = Math.max(min, Math.min(max, value))`. -/
def mathClamp (value lo hi : ℝ) : ℝ := max lo (min hi value)

/-- JavaScript `Math.atan2(y, x)`, with range `(-pi, pi]`, modelled as the
argument of the complex number `x + y i`. -/
def atan2 (y x : ℝ) : ℝ := Complex.arg ⟨x, y⟩

/-- Three.js `_Math.radToDeg(r) = r * (180 / Math.PI)`. -/
def radToDeg (r : ℝ) : ℝ := r * (180 / Real.pi)

/-- JavaScript `Number.EPSILON = 2 ^ (-52)`. -/
def numEPSILON : ℝ := 1 / 2 ^ 52

/-- `Vector3.angleTo(v)`:
`acos(clamp(dot / sqrt(lengthSq * lengthSq), -1, 1))`. -/
def Vec3.angleTo (a b : Vec3) : ℝ :=
  Real.arccos (mathClamp (a.dot b / Real.sqrt (a.lengthSq * b.lengthSq)) (-1) 1)

namespace Quat

/-- Squared norm of a quaternion (three.js `lengthSq`). -/
def normSq (q : Quat) : ℝ := q.x * q.x + q.y * q.y + q.z * q.z + q.w * q.w

/-- `Quaternion.length`. -/
def length (q : Quat) : ℝ := Real.sqrt q.normSq

/-- `Quaternion.conjugate` (value produced; the mutation is modelled by
using the conjugated value for every later read of the object). -/
def conjugate (q : Quat) : Quat := ⟨-q.x, -q.y, -q.z, q.w⟩

/-- `Quaternion.inverse` in three.js r10x: the conjugate, unit length
assumed. -/
def inverse (q : Quat) : Quat := q.conjugate

/-- Componentwise negation, as written inline in the sign-flip branch of
`slerp`. -/
def negQ (q : Quat) : Quat := ⟨-q.x, -q.y, -q.z, -q.w⟩

/-- `Quaternion.multiply`: Hamilton product `a * b` with the three.js
component formulas. -/
def mul (a b : Quat) : Quat :=
  ⟨a.x * b.w + a.w * b.x + a.y * b.z - a.z * b.y,
   a.y * b.w + a.w * b.y + a.z * b.x - a.x * b.z,
   a.z * b.w + a.w * b.z + a.x * b.y - a.y * b.x,
   a.w * b.w - a.x * b.x - a.y * b.y - a.z * b.z⟩

/-- Four-dimensional dot product of quaternion components. -/
def dotQ (a b : Quat) : ℝ := a.x * b.x + a.y * b.y + a.z * b.z + a.w * b.w

/-- `Quaternion.normalize`: divide by the length, or return the identity
when the length is zero. -/
def normalize (q : Quat) : Quat :=
  if q.length = 0 then ⟨0, 0, 0, 1⟩
  else ⟨q.x / q.length, q.y / q.length, q.z / q.length, q.w / q.length⟩

/-- `cosHalfTheta` before the sign adjustment in `slerp`:
`w * qb.w + x * qb.x + y * qb.y + z * qb.z`. -/
def slerpCos0 (qa qb : Quat) : ℝ :=
  qa.w * qb.w + qa.x * qb.x + qa.y * qb.y + qa.z * qb.z

/-- The value held by `this` after the sign-adjustment branch of `slerp`
(negated copy of `qb` when the dot product is negative, otherwise `qb`). -/
def slerpFlip (qa qb : Quat) : Quat :=
  if slerpCos0 qa qb < 0 then qb.negQ else qb

/-- `cosHalfTheta` after the sign adjustment in `slerp`. -/
def slerpCos (qa qb : Quat) : ℝ :=
  if slerpCos0 qa qb < 0 then -slerpCos0 qa qb else slerpCos0 qa qb

/-- `sqrSinHalfTheta = 1 - cosHalfTheta * cosHalfTheta` in `slerp`. -/
def slerpSinSqr (qa qb : Quat) : ℝ := 1 - slerpCos qa qb * slerpCos qa qb

/-- `sinHalfTheta = Math.sqrt(sqrSinHalfTheta)` in `slerp`. -/
def slerpSinHalf (qa qb : Quat) : ℝ := Real.sqrt (slerpSinSqr qa qb)

/-- `halfTheta = Math.atan2(sinHalfTheta, cosHalfTheta)` in `slerp`. -/
def slerpHalfTheta (qa qb : Quat) : ℝ := atan2 (slerpSinHalf qa qb) (slerpCos qa qb)

/-- `ratioA = Math.sin((1 - t) * halfTheta) / sinHalfTheta` in `slerp`. -/
def slerpRatioA (qa qb : Quat) (t : ℝ) : ℝ :=
  Real.sin ((1 - t) * slerpHalfTheta qa qb) / slerpSinHalf qa qb

/-- `ratioB = Math.sin(t * halfTheta) / sinHalfTheta` in `slerp`. -/
def slerpRatioB (qa qb : Quat) (t : ℝ) : ℝ :=
  Real.sin (t * slerpHalfTheta qa qb) / slerpSinHalf qa qb

/-- The linear-interpolation fallback of `slerp` before its `normalize()`
call: components `s * x + t * this._x` with `s = 1 - t`. -/
def lerpQuat (qa qb : Quat) (t : ℝ) : Quat :=
  ⟨(1 - t) * qa.x + t * qb.x, (1 - t) * qa.y + t * qb.y,
   (1 - t) * qa.z + t * qb.z, (1 - t) * qa.w + t * qb.w⟩

/-- The generic final branch of `slerp`:
`saved * ratioA + this * ratioB` componentwise. -/
def slerpMain (qa qb : Quat) (t : ℝ) : Quat :=
  ⟨qa.x * slerpRatioA qa qb t + (slerpFlip qa qb).x * slerpRatioB qa qb t,
   qa.y * slerpRatioA qa qb t + (slerpFlip qa qb).y * slerpRatioB qa qb t,
   qa.z * slerpRatioA qa qb t + (slerpFlip qa qb).z * slerpRatioB qa qb t,
   qa.w * slerpRatioA qa qb t + (slerpFlip qa qb).w * slerpRatioB qa qb t⟩

/-- `Quaternion.slerp(qb, t)` of three.js r10x, called on `qa`.  The saved
local variables `x, y, z, w` are the components of `qa`; the
`cosHalfTheta >= 1` branch restores them. -/
def slerp (qa qb : Quat) (t : ℝ) : Quat :=
  if t = 0 then qa
  else if t = 1 then qb
  else if 1 ≤ slerpCos qa qb then qa
  else if slerpSinSqr qa qb ≤ numEPSILON then (lerpQuat qa (slerpFlip qa qb) t).normalize
  else slerpMain qa qb t

end Quat

/-- Euler angles as produced by three.js `Euler`. -/
@[ext] structure EulerAngles where
  x : ℝ
  y : ℝ
  z : ℝ

/-- Three.js `Euler.setFromQuaternion(q, 'YXZ')`: build the rotation matrix
of `q` (`Matrix4.makeRotationFromQuaternion`) and extract YXZ angles from
its entries (`Euler.setFromRotationMatrix`, case YXZ). -/
def eulerYXZ (q : Quat) : EulerAngles :=
  let m11 : ℝ := 1 - 2 * (q.y * q.y + q.z * q.z)
  let m13 : ℝ := 2 * (q.x * q.z + q.w * q.y)
  let m21 : ℝ := 2 * (q.x * q.y + q.w * q.z)
  let m22 : ℝ := 1 - 2 * (q.x * q.x + q.z * q.z)
  let m23 : ℝ := 2 * (q.y * q.z - q.w * q.x)
  let m31 : ℝ := 2 * (q.x * q.z - q.w * q.y)
  let m33 : ℝ := 1 - 2 * (q.x * q.x + q.y * q.y)
  { x := Real.arcsin (-(mathClamp m23 (-1) 1)),
    y := if |m23| < 0.99999 then atan2 m13 m33 else atan2 (-m31) m11,
    z := if |m23| < 0.99999 then atan2 m21 m22 else 0 }

/-- Three.js `Quaternion.setFromEuler` for order YXZ. -/
def quatFromEulerYXZ (e : EulerAngles) : Quat :=
  let c1 : ℝ := Real.cos (e.x / 2)
  let c2 : ℝ := Real.cos (e.y / 2)
  let c3 : ℝ := Real.cos (e.z / 2)
  let s1 : ℝ := Real.sin (e.x / 2)
  let s2 : ℝ := Real.sin (e.y / 2)
  let s3 : ℝ := Real.sin (e.z / 2)
  ⟨s1 * c2 * c3 + c1 * s2 * s3,
   c1 * s2 * c3 - s1 * c2 * s3,
   c1 * c2 * s3 - s1 * s2 * c3,
   c1 * c2 * c3 + s1 * s2 * s3⟩

/-- Constant `HEAD_ELBOW_OFFSET`. -/
def HEAD_ELBOW_OFFSET : Vec3 := ⟨0.155, -0.465, -0.15⟩

/-- Constant `ELBOW_WRIST_OFFSET`. -/
def ELBOW_WRIST_OFFSET : Vec3 := ⟨0, 0, -0.25⟩

/-- Constant `WRIST_CONTROLLER_OFFSET`. -/
def WRIST_CONTROLLER_OFFSET : Vec3 := ⟨0, 0, 0.05⟩

/-- Constant `ARM_EXTENSION_OFFSET`. -/
def ARM_EXTENSION_OFFSET : Vec3 := ⟨-0.08, 0.14, 0.08⟩

/-- Constant ` ELBOW_BEND_RATIO = 0.4` (40 percent elbow, 60 percent wrist). -/
def ELBOW_BEND_RATIO : ℝ := 0.4

/-- Constant `EXTENSION_RATIO_WEIGHT = 0.4`. -/
def EXTENSION_RATIO_WEIGHT : ℝ := 0.4

/-- Constant `MIN_ANGULAR_SPEED = 0.61` (about 35 degrees per second, in
radians). -/
def MIN_ANGULAR_SPEED : ℝ := 0.61

/-- Method `OrientationArmModel.clamp_(value, min, max)`:
`Math.min(Math.max(value, min), max)`. -/
def clamp_ (value lo hi : ℝ) : ℝ := min (max value lo) hi

/-- Method `OrientationArmModel.quatAngle_(q1, q2)`: angle between the
images of the forward vector `(0,0,-1)` under the two rotations. -/
def quatAngle_ (q1 q2 : Quat) : ℝ :=
  ((⟨0, 0, -1⟩ : Vec3).applyQuaternion q1).angleTo ((⟨0, 0, -1⟩ : Vec3).applyQuaternion q2)

/-- Method `OrientationArmModel.getHeadYawOrientation_()`: YXZ Euler
angles of `headQ`, zero the x and z components, rebuild a quaternion. -/
def getHeadYawOrientation_ (headQ : Quat) : Quat :=
  quatFromEulerYXZ ⟨0, (eulerYXZ headQ).y, 0⟩

/-- Pose record `{orientation, position}` produced by the model. -/
@[ext] structure Pose where
  orientation : Quat
  position : Vec3

/-- Instance state of `OrientationArmModel`.  `time` and `lastTime` start
as `null` (`none`); `isLeftHanded` is set in the constructor and never
read. -/
structure ArmState where
  isLeftHanded : Bool
  controllerQ : Quat
  lastControllerQ : Quat
  headQ : Quat
  headPos : Vec3
  elbowPos : Vec3
  wristPos : Vec3
  time : Option ℝ
  lastTime : Option ℝ
  rootQ : Quat
  pose : Pose

/-- State built by the `OrientationArmModel` constructor. -/
def initialState : ArmState :=
  { isLeftHanded := false
    controllerQ := qIdentity
    lastControllerQ := qIdentity
    headQ := qIdentity
    headPos := vZero
    elbowPos := vZero
    wristPos := vZero
    time := none
    lastTime := none
    rootQ := qIdentity
    pose := ⟨qIdentity, vZero⟩ }

/-- `setControllerOrientation(quaternion)`: copy `controllerQ` into
`lastControllerQ`, then copy the argument into `controllerQ`. -/
def setControllerOrientation (s : ArmState) (q : Quat) : ArmState :=
  { s with lastControllerQ := s.controllerQ, controllerQ := q }

/-- `setHeadOrientation(quaternion)`. -/
def setHeadOrientation (s : ArmState) (q : Quat) : ArmState :=
  { s with headQ := q }

/-- `setHeadPosition(position)`. -/
def setHeadPosition (s : ArmState) (p : Vec3) : ArmState :=
  { s with headPos := p }

/-- `getPose()`. -/
def getPose (s : ArmState) : Pose := s.pose

/-- Local `timeDelta = (this.time - this.lastTime) / 1000` in `update`,
where `this.time` is the fresh clock reading `now` and a `null`
`this.lastTime` is coerced to `0` by JavaScript subtraction. -/
def timeDeltaOf (s : ArmState) (now : ℝ) : ℝ := (now - s.lastTime.getD 0) / 1000

/-- Local `angleDelta = this.quatAngle_(this.lastControllerQ, this.controllerQ)`
in `update`. -/
def angleDeltaOf (s : ArmState) : ℝ := quatAngle_ s.lastControllerQ s.controllerQ

/-- Local `controllerAngularSpeed = angleDelta / timeDelta` in `update`. -/
def controllerAngularSpeedOf (s : ArmState) (now : ℝ) : ℝ :=
  angleDeltaOf s / timeDeltaOf s now

/-- Value of `this.rootQ` after the angular-speed branch of `update`:
partial slerp toward `headYawQ` when the controller moves fast, snap to
`headYawQ` otherwise. -/
def rootQAfter (s : ArmState) (now : ℝ) : Quat :=
  if MIN_ANGULAR_SPEED < controllerAngularSpeedOf s now then
    Quat.slerp s.rootQ (getHeadYawOrientation_ s.headQ) (angleDeltaOf s / 10)
  else getHeadYawOrientation_ s.headQ

/-- Local `controllerXDeg = Math2.radToDeg(controllerEuler.x)` in `update`,
with `controllerEuler = new Euler().setFromQuaternion(this.controllerQ, 'YXZ')`. -/
def controllerXDegOf (s : ArmState) : ℝ := radToDeg (eulerYXZ s.controllerQ).x

/-- Local `extensionRatio = this.clamp_((controllerXDeg - 11) / (50 - 11), 0, 1)`
in `update`. -/
def extensionRatioOf (s : ArmState) : ℝ :=
  clamp_ ((controllerXDegOf s - 11) / (50 - 11)) 0 1

/-- Local `controllerCameraQ = this.rootQ.clone().inverse()` followed by
`controllerCameraQ.multiply(this.controllerQ)` in `update`. -/
def controllerCameraQOf (s : ArmState) (now : ℝ) : Quat :=
  ((rootQAfter s now).inverse).mul s.controllerQ

/-- Value of `this.elbowPos` after `update`:
`headPos + HEAD_ELBOW_OFFSET + ARM_EXTENSION_OFFSET * extensionRatio`. -/
def elbowPosAfter (s : ArmState) : Vec3 :=
  (s.headPos.add HEAD_ELBOW_OFFSET).add
    (ARM_EXTENSION_OFFSET.multiplyScalar (extensionRatioOf s))

/-- Local `totalAngle = this.quatAngle_(controllerCameraQ, new Quaternion())`
in `update`. -/
def totalAngleOf (s : ArmState) (now : ℝ) : ℝ :=
  quatAngle_ (controllerCameraQOf s now) qIdentity

/-- Local `totalAngleDeg = Math2.radToDeg(totalAngle)` in `update`. -/
def totalAngleDegOf (s : ArmState) (now : ℝ) : ℝ := radToDeg (totalAngleOf s now)

/-- The map `d` mapsto `1 - Math.pow(d / 180, 4)` applied to
`totalAngleDeg` in `update`. -/
def lerpSuppressionFun (d : ℝ) : ℝ := 1 - (d / 180) ^ 4

/-- Local `lerpSuppression = 1 - Math.pow(totalAngleDeg / 180, 4)` in
`update`. -/
def lerpSuppressionOf (s : ArmState) (now : ℝ) : ℝ :=
  lerpSuppressionFun (totalAngleDegOf s now)

/-- Local `lerpValue = lerpSuppression * (elbowRatio + wristRatio * extensionRatio * EXTENSION_RATIO_WEIGHT)`
in `update`, with `elbowRatio = ELBOW_BEND_RATIO ` and
`wristRatio = 1 - ELBOW_BEND_RATIO`. -/
def lerpValueOf (s : ArmState) (now : ℝ) : ℝ :=
  lerpSuppressionOf s now *
    ( ELBOW_BEND_RATIO + (1 - ELBOW_BEND_RATIO) * extensionRatioOf s * EXTENSION_RATIO_WEIGHT)

/-- The wrist rotation produced by
`new Quaternion().slerp(controllerCameraQ, lerpValue)` for a given camera
rotation `c` and interpolation parameter `t`. -/
def wristQFor (c : Quat) (t : ℝ) : Quat := Quat.slerp qIdentity c t

/-- The elbow rotation `controllerCameraQ.clone().multiply(invWristQ)` with
`invWristQ = wristQ.inverse()`. -/
def elbowQFor (c : Quat) (t : ℝ) : Quat := c.mul (wristQFor c t).inverse

/-- Local `wristQ` in `update`, as first computed by the slerp. -/
def wristQOf (s : ArmState) (now : ℝ) : Quat :=
  wristQFor (controllerCameraQOf s now) (lerpValueOf s now)

/-- Local `elbowQ` in `update`. -/
def elbowQOf (s : ArmState) (now : ℝ) : Quat :=
  elbowQFor (controllerCameraQOf s now) (lerpValueOf s now)

/-- Value of `this.wristPos` after `update`.  Note the aliasing in the
source: `wristQ.inverse()` conjugates `wristQ` in place, so the subsequent
`wristPos.applyQuaternion(wristQ)` rotates by the conjugate
`(wristQOf s now).inverse`, not by the slerped `wristQ` itself. -/
def wristPosAfter (s : ArmState) (now : ℝ) : Vec3 :=
  ((((WRIST_CONTROLLER_OFFSET.applyQuaternion ((wristQOf s now).inverse)).add
      ELBOW_WRIST_OFFSET).applyQuaternion (elbowQOf s now)).add (elbowPosAfter s))

/-- Final `position` in `update`:
`(wristPos + ARM_EXTENSION_OFFSET * extensionRatio)` rotated by `rootQ`. -/
def positionAfter (s : ArmState) (now : ℝ) : Vec3 :=
  ((wristPosAfter s now).add
      (ARM_EXTENSION_OFFSET.multiplyScalar (extensionRatioOf s))).applyQuaternion
    (rootQAfter s now)

/-- Method `OrientationArmModel.update()`, with the `performance.now()`
reading passed in as `now`.  Mutates `time`, `rootQ`, `elbowPos`,
`wristPos`, `pose` and finally `lastTime`; the final `orientation` is a
copy of `this.controllerQ`. -/
def update (s : ArmState) (now : ℝ) : ArmState :=
  { s with
    time := some now
    rootQ := rootQAfter s now
    elbowPos := elbowPosAfter s
    wristPos := wristPosAfter s now
    pose := ⟨s.controllerQ, positionAfter s now⟩
    lastTime := some now }

/-- Rotation by 90 degrees about the y axis: a controller whose pointing
direction differs by 90 degrees from the identity pointing direction. -/
def qRotY90 : Quat := ⟨0, Real.sqrt 2 / 2, 0, Real.sqrt 2 / 2⟩

/-- Rotation by 90 degrees about the x axis. -/
def qRotX90 : Quat := ⟨Real.sqrt 2 / 2, 0, 0, Real.sqrt 2 / 2⟩

/-- Scenario state for the fast-motion branch: the constructor state one
frame after the controller pointing direction jumped by 90 degrees, with
the previous `update` 16 milliseconds before the next clock reading. -/
def fastMotionState : ArmState :=
  { initialState with controllerQ := qRotY90, lastTime := some 0 }

/-- The model clamp is bounded above by its upper bound. -/
theorem clamp_le_hi (v lo hi : ℝ) : clamp_ v lo hi ≤ hi := min_le_right _ _

/-- The model clamp is bounded below by its lower bound when the bounds are
ordered. -/
theorem lo_le_clamp (v lo hi : ℝ) (h : lo ≤ hi) : lo ≤ clamp_ v lo hi :=
  le_min (le_max_right v lo) h

/-- Clamping a value already below the lower bound yields the lower bound. -/
theorem clamp_of_le_lo (v lo hi : ℝ) (hv : v ≤ lo) (h : lo ≤ hi) :
    clamp_ v lo hi = lo := by
  unfold clamp_
  rw [max_eq_right hv, min_eq_left h]

/-- Clamping a value already above the upper bound yields the upper bound. -/
theorem clamp_of_hi_le (v lo hi : ℝ) (hv : hi ≤ v) (h : lo ≤ hi) :
    clamp_ v lo hi = hi := by
  unfold clamp_
  rw [max_eq_left (le_trans h hv), min_eq_right hv]

/-- Clamping a value between the bounds leaves it unchanged. -/
theorem clamp_of_mem (v lo hi : ℝ) (h1 : lo ≤ v) (h2 : v ≤ hi) :
    clamp_ v lo hi = v := by
  unfold clamp_
  rw [max_eq_left h1, min_eq_left h2]

/-- `Vector3.dot` of a vector with itself is its `lengthSq`. -/
theorem Vec3.dot_self (a : Vec3) : a.dot a = a.lengthSq := rfl

/-- Rotating by a quaternion scales the squared length by the square of the
quaternion squared norm (so unit quaternions preserve lengths). -/
theorem Vec3.lengthSq_applyQuaternion (v : Vec3) (q : Quat) :
    (v.applyQuaternion q).lengthSq = q.normSq ^ 2 * v.lengthSq := by
  simp only [Vec3.applyQuaternion, Vec3.lengthSq, Quat.normSq]
  ring

/-- The squared quaternion norm is nonnegative. -/
theorem Quat.normSq_nonneg (q : Quat) : 0 ≤ q.normSq := by
  unfold Quat.normSq
  nlinarith [sq_nonneg q.x, sq_nonneg q.y, sq_nonneg q.z, sq_nonneg q.w]

/-- `quatAngle_` always returns a value in `[0, pi]` (it is an `arccos`). -/
theorem quatAngle_mem_Icc (q1 q2 : Quat) :
    0 ≤ quatAngle_ q1 q2 ∧ quatAngle_ q1 q2 ≤ Real.pi :=
  ⟨Real.arccos_nonneg _, Real.arccos_le_pi _⟩

/-- The pointing-direction angle from a unit quaternion to itself is zero. -/
theorem quatAngle_self (q : Quat) (h : q.normSq = 1) : quatAngle_ q q = 0 := by
  have hv : ((⟨0, 0, -1⟩ : Vec3).applyQuaternion q).lengthSq = 1 := by
    rw [Vec3.lengthSq_applyQuaternion, h]
    norm_num [Vec3.lengthSq]
  unfold quatAngle_ Vec3.angleTo
  rw [Vec3.dot_self, hv]
  norm_num [mathClamp]

/-- JavaScript `atan2` applied to `(sqrt(1 - c*c), c)` recovers `arccos c`
for `c` in `[-1, 1]`. -/
theorem atan2_sqrt_one_sub_sq (c : ℝ) (h1 : -1 ≤ c) (h2 : c ≤ 1) :
    atan2 (Real.sqrt (1 - c * c)) c = Real.arccos c := by
  have hcos : Real.cos (Real.arccos c) = c := Real.cos_arccos h1 h2
  have hsin : Real.sin (Real.arccos c) = Real.sqrt (1 - c * c) := by
    rw [Real.sin_arccos, sq]
  have hmem : Real.arccos c ∈ Set.Ioc (-Real.pi) Real.pi := by
    constructor
    · have := Real.arccos_nonneg c
      have := Real.pi_pos
      linarith
    · exact Real.arccos_le_pi c
  have harg := Complex.arg_cos_add_sin_mul_I hmem
  rw [← Complex.ofReal_cos, ← Complex.ofReal_sin] at harg
  have hz : (⟨c, Real.sqrt (1 - c * c)⟩ : ℂ)
      = (↑(Real.cos (Real.arccos c)) + ↑(Real.sin (Real.arccos c)) * Complex.I) := by
    apply Complex.ext <;> simp [hcos, hsin]
  unfold atan2
  rw [hz, harg]

/-- Product-to-sum identity used for the slerp norm: the squared norm
numerator collapses to the square of the sine of the full half angle. -/
theorem sin_blend_sq (A B : ℝ) :
    Real.sin A ^ 2 + 2 * Real.sin A * Real.sin B * Real.cos (A + B) + Real.sin B ^ 2
      = Real.sin (A + B) ^ 2 := by
  rw [Real.sin_add, Real.cos_add]
  linear_combination (-(Real.sin A ^ 2)) * Real.sin_sq_add_cos_sq B
    + (-(Real.sin B ^ 2)) * Real.sin_sq_add_cos_sq A

/-- `Quaternion.normalize` always produces a unit quaternion in this model
(the zero-length guard returns the identity). -/
theorem Quat.normSq_normalize (q : Quat) : q.normalize.normSq = 1 := by
  unfold Quat.normalize
  split_ifs with h
  · norm_num [Quat.normSq]
  · have hn : 0 ≤ q.normSq := q.normSq_nonneg
    have hl : q.length * q.length = q.x * q.x + q.y * q.y + q.z * q.z + q.w * q.w := by
      unfold Quat.length
      rw [Real.mul_self_sqrt hn]
      rfl
    have hlne : q.length ≠ 0 := h
    show q.x / q.length * (q.x / q.length) + q.y / q.length * (q.y / q.length)
        + q.z / q.length * (q.z / q.length) + q.w / q.length * (q.w / q.length) = 1
    field_simp
    linear_combination -hl

/-- Componentwise expansion of the squared norm of the linear fallback. -/
theorem Quat.normSq_lerpQuat (qa qb : Quat) (t : ℝ) :
    (Quat.lerpQuat qa qb t).normSq
      = (1 - t) ^ 2 * qa.normSq + 2 * (1 - t) * t * Quat.dotQ qa qb
        + t ^ 2 * qb.normSq := by
  simp only [Quat.lerpQuat, Quat.normSq, Quat.dotQ]
  ring

/-- Componentwise expansion of the squared norm of the generic slerp
branch. -/
theorem Quat.normSq_slerpMain (qa qb : Quat) (t : ℝ) :
    (Quat.slerpMain qa qb t).normSq
      = Quat.slerpRatioA qa qb t ^ 2 * qa.normSq
        + 2 * Quat.slerpRatioA qa qb t * Quat.slerpRatioB qa qb t
            * Quat.dotQ qa (Quat.slerpFlip qa qb)
        + Quat.slerpRatioB qa qb t ^ 2 * (Quat.slerpFlip qa qb).normSq := by
  simp only [Quat.slerpMain, Quat.normSq, Quat.dotQ]
  ring

/-- Sign flipping preserves the squared norm. -/
theorem Quat.normSq_slerpFlip (qa qb : Quat) :
    (Quat.slerpFlip qa qb).normSq = qb.normSq := by
  unfold Quat.slerpFlip
  split_ifs <;> simp [Quat.negQ, Quat.normSq] <;> ring

/-- The dot product against the sign-adjusted quaternion is the adjusted
cosine. -/
theorem Quat.dotQ_slerpFlip (qa qb : Quat) :
    Quat.dotQ qa (Quat.slerpFlip qa qb) = Quat.slerpCos qa qb := by
  unfold Quat.slerpFlip Quat.slerpCos Quat.slerpCos0
  split_ifs <;> simp [Quat.negQ, Quat.dotQ] <;> ring

/-- The adjusted cosine is nonnegative. -/
theorem Quat.slerpCos_nonneg (qa qb : Quat) : 0 ≤ Quat.slerpCos qa qb := by
  unfold Quat.slerpCos
  split_ifs with h <;> linarith

/-- Three.js `slerp` preserves unit norm for unit inputs and an
interpolation parameter in `[0, 1]`. -/
theorem Quat.normSq_slerp (qa qb : Quat) (t : ℝ) (ha : qa.normSq = 1)
    (hb : qb.normSq = 1) :
    (Quat.slerp qa qb t).normSq = 1 := by
  unfold Quat.slerp
  split_ifs with h0 h1 hge heps
  · exact ha
  · exact hb
  · exact ha
  · exact Quat.normSq_normalize _
  · have hc0 : 0 ≤ Quat.slerpCos qa qb := Quat.slerpCos_nonneg qa qb
    have hc1 : Quat.slerpCos qa qb < 1 := not_le.mp hge
    have heps_pos : (0 : ℝ) < numEPSILON := by norm_num [numEPSILON]
    have hsqr_pos : 0 < 1 - Quat.slerpCos qa qb * Quat.slerpCos qa qb := by
      have := not_le.mp heps
      unfold Quat.slerpSinSqr at this
      linarith
    have hs_pos : 0 < Quat.slerpSinHalf qa qb := by
      unfold Quat.slerpSinHalf Quat.slerpSinSqr
      exact Real.sqrt_pos.mpr hsqr_pos
    have hs2 : Quat.slerpSinHalf qa qb * Quat.slerpSinHalf qa qb
        = 1 - Quat.slerpCos qa qb * Quat.slerpCos qa qb := by
      unfold Quat.slerpSinHalf Quat.slerpSinSqr
      exact Real.mul_self_sqrt (le_of_lt hsqr_pos)
    have hh : Quat.slerpHalfTheta qa qb = Real.arccos (Quat.slerpCos qa qb) := by
      unfold Quat.slerpHalfTheta Quat.slerpSinHalf Quat.slerpSinSqr
      exact atan2_sqrt_one_sub_sq _ (by linarith) (le_of_lt hc1)
    have hcosh : Real.cos (Quat.slerpHalfTheta qa qb) = Quat.slerpCos qa qb := by
      rw [hh]
      exact Real.cos_arccos (by linarith) (le_of_lt hc1)
    have hsinh : Real.sin (Quat.slerpHalfTheta qa qb) = Quat.slerpSinHalf qa qb := by
      rw [hh, Real.sin_arccos, sq]
      unfold Quat.slerpSinHalf Quat.slerpSinSqr
      rfl
    rw [Quat.normSq_slerpMain, Quat.dotQ_slerpFlip, Quat.normSq_slerpFlip, ha, hb]
    unfold Quat.slerpRatioA Quat.slerpRatioB
    have key := sin_blend_sq ((1 - t) * Quat.slerpHalfTheta qa qb)
      (t * Quat.slerpHalfTheta qa qb)
    rw [show (1 - t) * Quat.slerpHalfTheta qa qb + t * Quat.slerpHalfTheta qa qb
        = Quat.slerpHalfTheta qa qb by ring, hcosh, hsinh] at key
    have hsne : Quat.slerpSinHalf qa qb ≠ 0 := ne_of_gt hs_pos
    field_simp
    linear_combination (Quat.slerpSinHalf qa qb ^ 4) * key

/-- Multiplying through the three.js inverse (the conjugate) on the right
scales by the squared norm: `(c * conj w) * w = normSq w * c`. -/
theorem Quat.mul_inverse_mul (c w : Quat) :
    (c.mul w.inverse).mul w
      = ⟨c.x * w.normSq, c.y * w.normSq, c.z * w.normSq, c.w * w.normSq⟩ := by
  ext <;> simp [Quat.mul, Quat.inverse, Quat.conjugate, Quat.normSq] <;> ring

/-- The identity quaternion has unit norm. -/
theorem Quat.normSq_qIdentity : qIdentity.normSq = 1 := by
  norm_num [qIdentity, Quat.normSq]

/-- C1: after every `update` call, the pose orientation returned by
`getPose` equals, component for component, the controller orientation most
recently passed to `setControllerOrientation`, and for a unit-quaternion
input it has unit norm. -/
theorem c1_pose_orientation_unchanged (s : ArmState) (q : Quat) (now : ℝ)
    (h : q.normSq = 1) :
    (getPose (update (setControllerOrientation s q) now)).orientation = q
      ∧ (getPose (update (setControllerOrientation s q) now)).orientation.normSq = 1 :=
  ⟨rfl, h⟩

/-- C1 witness: the constructor state updated with the identity controller
orientation at clock reading 16. -/
theorem c1_pose_orientation_unchanged_witness :
    qIdentity.normSq = 1
      ∧ ((getPose (update (setControllerOrientation initialState qIdentity) 16)).orientation
            = qIdentity
          ∧ (getPose (update (setControllerOrientation initialState qIdentity) 16)).orientation.normSq
            = 1) :=
  ⟨Quat.normSq_qIdentity,
    c1_pose_orientation_unchanged initialState qIdentity 16 Quat.normSq_qIdentity⟩

/-- C8: `setControllerOrientation` first copies `controllerQ` into
`lastControllerQ` and then stores its argument in `controllerQ`, while
`update` writes none of `controllerQ`, `lastControllerQ`, `headQ`,
`headPos`. -/
theorem c8_setter_history_update_reads_only (s : ArmState) (q : Quat) (now : ℝ) :
    (setControllerOrientation s q).lastControllerQ = s.controllerQ
      ∧ (setControllerOrientation s q).controllerQ = q
      ∧ (update s now).controllerQ = s.controllerQ
      ∧ (update s now).lastControllerQ = s.lastControllerQ
      ∧ (update s now).headQ = s.headQ
      ∧ (update s now).headPos = s.headPos :=
  ⟨rfl, rfl, rfl, rfl, rfl, rfl⟩

/-- C3: in every `update`, when `controllerAngularSpeed = angleDelta / timeDelta`
exceeds `MIN_ANGULAR_SPEED = 0.61`, `rootQ` is slerped toward the head yaw
orientation by the fraction `angleDelta / 10`; otherwise `rootQ` is set to
the head yaw orientation exactly. -/
theorem c3_root_rotation_branch (s : ArmState) (now : ℝ) :
    MIN_ANGULAR_SPEED = 0.61
      ∧ controllerAngularSpeedOf s now = angleDeltaOf s / timeDeltaOf s now
      ∧ (MIN_ANGULAR_SPEED < controllerAngularSpeedOf s now →
          (update s now).rootQ
            = Quat.slerp s.rootQ (getHeadYawOrientation_ s.headQ) (angleDeltaOf s / 10))
      ∧ (¬ MIN_ANGULAR_SPEED < controllerAngularSpeedOf s now →
          (update s now).rootQ = getHeadYawOrientation_ s.headQ) := by
  refine ⟨rfl, rfl, fun h => ?_, fun h => ?_⟩
  · show rootQAfter s now = _
    rw [rootQAfter, if_pos h]
  · show rootQAfter s now = _
    rw [rootQAfter, if_neg h]

/-- C3 witness: a 90 degree pointing change within one 16 millisecond
frame exceeds the angular-speed threshold, so `rootQ` takes only the
partial slerp step. -/
theorem c3_root_rotation_branch_witness :
    MIN_ANGULAR_SPEED < controllerAngularSpeedOf fastMotionState 16
      ∧ (update fastMotionState 16).rootQ
          = Quat.slerp fastMotionState.rootQ
              (getHeadYawOrientation_ fastMotionState.headQ)
              (angleDeltaOf fastMotionState / 10) := by
  have h2 : Real.sqrt 2 * Real.sqrt 2 = 2 := Real.mul_self_sqrt (by norm_num)
  have hangle : angleDeltaOf fastMotionState = Real.pi / 2 := by
    unfold angleDeltaOf quatAngle_ Vec3.angleTo
    norm_num [fastMotionState, initialState, qRotY90, qIdentity, Vec3.applyQuaternion,
      Vec3.dot, Vec3.lengthSq, mathClamp, h2]
  have htd : timeDeltaOf fastMotionState 16 = 2 / 125 := by
    norm_num [timeDeltaOf, fastMotionState, initialState]
  have hspeed : MIN_ANGULAR_SPEED < controllerAngularSpeedOf fastMotionState 16 := by
    unfold controllerAngularSpeedOf
    rw [hangle, htd]
    have hpi := Real.pi_gt_three
    rw [MIN_ANGULAR_SPEED]
    linarith
  exact ⟨hspeed, (c3_root_rotation_branch fastMotionState 16).2.2.1 hspeed⟩

/-- C7: when the controller input is unchanged (`lastControllerQ` equals
`controllerQ`, a unit quaternion), the angle delta is zero, so whatever
the time delta is, the division yields speed zero, the snap branch is
taken, and after the second of two consecutive `update` calls `rootQ`
equals the head yaw orientation exactly. -/
theorem c7_unchanged_input_snaps (s : ArmState) (t1 t2 : ℝ)
    (heq : s.lastControllerQ = s.controllerQ) (hunit : s.controllerQ.normSq = 1) :
    controllerAngularSpeedOf (update s t1) t2 = 0
      ∧ (update (update s t1) t2).rootQ = getHeadYawOrientation_ s.headQ := by
  have hangle : angleDeltaOf (update s t1) = 0 := by
    show quatAngle_ (update s t1).lastControllerQ (update s t1).controllerQ = 0
    have h1 : (update s t1).lastControllerQ = s.controllerQ := heq
    have h2 : (update s t1).controllerQ = s.controllerQ := rfl
    rw [h1, h2]
    exact quatAngle_self _ hunit
  have hspeed : controllerAngularSpeedOf (update s t1) t2 = 0 := by
    unfold controllerAngularSpeedOf
    rw [hangle]
    exact zero_div _
  refine ⟨hspeed, ?_⟩
  show rootQAfter (update s t1) t2 = _
  rw [rootQAfter, if_neg (by rw [hspeed, MIN_ANGULAR_SPEED]; norm_num)]
  rfl

/-- C7 witness: the constructor state (identity controller orientation,
unchanged) updated at clock readings 0 and 16. -/
theorem c7_unchanged_input_snaps_witness :
    initialState.lastControllerQ = initialState.controllerQ
      ∧ initialState.controllerQ.normSq = 1
      ∧ (controllerAngularSpeedOf (update initialState 0) 16 = 0
          ∧ (update (update initialState 0) 16).rootQ
              = getHeadYawOrientation_ initialState.headQ) :=
  ⟨rfl, Quat.normSq_qIdentity,
    c7_unchanged_input_snaps initialState 0 16 rfl Quat.normSq_qIdentity⟩

/-- C10: on the first `update` call of an instance, the `null` `lastTime`
is coerced to zero, so `timeDelta` is the clock reading divided by 1000,
positive for a positive reading; the call completes, storing the pose and
both timestamps. -/
theorem c10_first_update_total (s : ArmState) (now : ℝ)
    (hnull : s.lastTime = none) (hpos : 0 < now) :
    timeDeltaOf s now = now / 1000
      ∧ 0 < timeDeltaOf s now
      ∧ (update s now).lastTime = some now
      ∧ (update s now).time = some now
      ∧ (update s now).pose.orientation = s.controllerQ := by
  have h1 : timeDeltaOf s now = now / 1000 := by
    unfold timeDeltaOf
    rw [hnull]
    norm_num
  refine ⟨h1, ?_, rfl, rfl, rfl⟩
  rw [h1]
  exact div_pos hpos (by norm_num)

/-- C10 witness: the constructor state, first update at clock reading 16. -/
theorem c10_first_update_total_witness :
    initialState.lastTime = none ∧ (0 : ℝ) < 16
      ∧ (timeDeltaOf initialState 16 = 16 / 1000
          ∧ 0 < timeDeltaOf initialState 16
          ∧ (update initialState 16).lastTime = some 16
          ∧ (update initialState 16).time = some 16
          ∧ (update initialState 16).pose.orientation = initialState.controllerQ) :=
  ⟨rfl, by norm_num, c10_first_update_total initialState 16 rfl (by norm_num)⟩

/-- C4: `extensionRatio` is the clamp of the linear ramp
`(controllerPitchDeg - 11) / (50 - 11)` to `[0, 1]`: it always lies in
`[0, 1]`, is 0 for pitch at or below 11 degrees, 1 for pitch at or above
50 degrees, and equals the unclamped ramp in between. -/
theorem c4_extension_ratio_ramp (s : ArmState) :
    extensionRatioOf s = clamp_ ((controllerXDegOf s - 11) / (50 - 11)) 0 1
      ∧ ∀ d : ℝ,
          (0 ≤ clamp_ ((d - 11) / (50 - 11)) 0 1
              ∧ clamp_ ((d - 11) / (50 - 11)) 0 1 ≤ 1)
            ∧ (d ≤ 11 → clamp_ ((d - 11) / (50 - 11)) 0 1 = 0)
            ∧ (50 ≤ d → clamp_ ((d - 11) / (50 - 11)) 0 1 = 1)
            ∧ (11 ≤ d → d ≤ 50 →
                clamp_ ((d - 11) / (50 - 11)) 0 1 = (d - 11) / (50 - 11)) := by
  refine ⟨rfl, fun d => ⟨⟨lo_le_clamp _ _ _ (by norm_num), clamp_le_hi _ _ _⟩,
    fun h => ?_, fun h => ?_, fun h1 h2 => ?_⟩⟩
  · apply clamp_of_le_lo _ _ _ _ (by norm_num)
    rw [div_nonpos_iff]
    right
    constructor
    · linarith
    · norm_num
  · apply clamp_of_hi_le _ _ _ _ (by norm_num)
    rw [le_div_iff (by norm_num : (0:ℝ) < 50 - 11)]
    linarith
  · apply clamp_of_mem
    · apply div_nonneg (by linarith) (by norm_num)
    · rw [div_le_one (by norm_num : (0:ℝ) < 50 - 11)]
      linarith

/-- C4 witness: the constructor state, plus the low-pitch leg of the ramp
at 5 degrees. -/
theorem c4_extension_ratio_ramp_witness :
    extensionRatioOf initialState
        = clamp_ ((controllerXDegOf initialState - 11) / (50 - 11)) 0 1
      ∧ ((5 : ℝ) ≤ 11 ∧ clamp_ (((5 : ℝ) - 11) / (50 - 11)) 0 1 = 0) :=
  ⟨(c4_extension_ratio_ramp initialState).1,
    by norm_num, ((c4_extension_ratio_ramp initialState).2 5).2.1 (by norm_num)⟩

/-- C6: the suppression factor computed in `update` is `1 - (d/180)^4` of
the total angle in degrees, a quantity that equals 1 at `d = 0`, is
monotonically non-increasing over `[0, 180]`, vanishes at `d = 180`, and
tends to 0 as `d` tends to 180. -/
theorem c6_lerp_suppression_shape (s : ArmState) (now : ℝ) :
    lerpSuppressionOf s now = 1 - (totalAngleDegOf s now / 180) ^ 4
      ∧ lerpSuppressionFun 0 = 1
      ∧ (∀ a b : ℝ, 0 ≤ a → a ≤ b → b ≤ 180 →
          lerpSuppressionFun b ≤ lerpSuppressionFun a)
      ∧ lerpSuppressionFun 180 = 0
      ∧ Filter.Tendsto lerpSuppressionFun (nhds 180) (nhds 0) := by
  refine ⟨rfl, by norm_num [lerpSuppressionFun], fun a b ha hab hb => ?_,
    by norm_num [lerpSuppressionFun], ?_⟩
  · unfold lerpSuppressionFun
    have h1 : (a / 180) ^ 4 ≤ (b / 180) ^ 4 := by
      apply pow_le_pow_left (by positivity)
      linarith
    linarith
  · have hc : Continuous lerpSuppressionFun := by
      unfold lerpSuppressionFun
      continuity
    have ht := hc.tendsto 180
    have h180 : lerpSuppressionFun 180 = 0 := by norm_num [lerpSuppressionFun]
    rw [h180] at ht
    exact ht

/-- C6 witness: the constructor state at clock reading 16, plus the
monotonicity instance from 0 to 90 degrees. -/
theorem c6_lerp_suppression_shape_witness :
    lerpSuppressionOf initialState 16
        = 1 - (totalAngleDegOf initialState 16 / 180) ^ 4
      ∧ ((0 : ℝ) ≤ 0 ∧ (0 : ℝ) ≤ 90 ∧ (90 : ℝ) ≤ 180
          ∧ lerpSuppressionFun 90 ≤ lerpSuppressionFun 0) :=
  ⟨(c6_lerp_suppression_shape initialState 16).1, le_refl 0, by norm_num, by norm_num,
    (c6_lerp_suppression_shape initialState 16).2.2.1 0 90 le_rfl (by norm_num) (by norm_num)⟩

/-- C9: in every `update`, the pointing metric lies in `[0, pi]`, the
total angle in degrees in `[0, 180]`, the suppression factor in `[0, 1]`,
and the wrist interpolation parameter `lerpValue` in `[0, 0.64]`, a subset
of `[0, 1]`, so the wrist slerp interpolates and never extrapolates. -/
theorem c9_lerp_value_bounds (s : ArmState) (now : ℝ) (q1 q2 : Quat) :
    (0 ≤ quatAngle_ q1 q2 ∧ quatAngle_ q1 q2 ≤ Real.pi)
      ∧ (0 ≤ totalAngleDegOf s now ∧ totalAngleDegOf s now ≤ 180)
      ∧ (0 ≤ lerpSuppressionOf s now ∧ lerpSuppressionOf s now ≤ 1)
      ∧ (0 ≤ lerpValueOf s now ∧ lerpValueOf s now ≤ 0.64) := by
  have hccq := quatAngle_mem_Icc (controllerCameraQOf s now) qIdentity
  have hdiv : (0 : ℝ) ≤ 180 / Real.pi := div_nonneg (by norm_num) Real.pi_pos.le
  have hdeg0 : 0 ≤ totalAngleDegOf s now := by
    unfold totalAngleDegOf radToDeg totalAngleOf
    exact mul_nonneg hccq.1 hdiv
  have hdeg1 : totalAngleDegOf s now ≤ 180 := by
    unfold totalAngleDegOf radToDeg totalAngleOf
    calc quatAngle_ (controllerCameraQOf s now) qIdentity * (180 / Real.pi)
        ≤ Real.pi * (180 / Real.pi) := mul_le_mul_of_nonneg_right hccq.2 hdiv
      _ = 180 := by
          field_simp
  have hlS0 : 0 ≤ lerpSuppressionOf s now := by
    unfold lerpSuppressionOf lerpSuppressionFun
    have hu : (totalAngleDegOf s now / 180) ^ 4 ≤ 1 := by
      apply pow_le_one (by positivity)
      rw [div_le_one (by norm_num : (0:ℝ) < 180)]
      exact hdeg1
    linarith
  have hlS1 : lerpSuppressionOf s now ≤ 1 := by
    unfold lerpSuppressionOf lerpSuppressionFun
    have hu : 0 ≤ (totalAngleDegOf s now / 180) ^ 4 := by positivity
    linarith
  have her0 : 0 ≤ extensionRatioOf s := lo_le_clamp _ _ _ (by norm_num)
  have her1 : extensionRatioOf s ≤ 1 := clamp_le_hi _ _ _
  refine ⟨quatAngle_mem_Icc q1 q2, ⟨hdeg0, hdeg1⟩, ⟨hlS0, hlS1⟩, ?_, ?_⟩
  · unfold lerpValueOf
    rw [ ELBOW_BEND_RATIO, EXTENSION_RATIO_WEIGHT]
    nlinarith [hlS0, her0, her1]
  · unfold lerpValueOf
    rw [ ELBOW_BEND_RATIO, EXTENSION_RATIO_WEIGHT]
    nlinarith [hlS0, hlS1, her0, her1]

/-- C5: for every unit camera-relative rotation and every interpolation
parameter in `[0, 1]`, the wrist rotation `slerp(identity, c, t)` and the
elbow rotation `c * inverse(wristQ)` computed in `update` compose back to
`c` exactly in the real-number model. -/
theorem c5_elbow_wrist_compose (c : Quat) (t : ℝ) (hc : c.normSq = 1)
    (ht0 : 0 ≤ t) (ht1 : t ≤ 1) :
    (elbowQFor c t).mul (wristQFor c t) = c := by
  have hw : (wristQFor c t).normSq = 1 :=
    Quat.normSq_slerp qIdentity c t Quat.normSq_qIdentity hc
  unfold elbowQFor
  rw [Quat.mul_inverse_mul, hw]
  ext <;> simp

/-- C5 witness: the identity rotation split at the interpolation value
one half. -/
theorem c5_elbow_wrist_compose_witness :
    qIdentity.normSq = 1 ∧ (0 : ℝ) ≤ 1 / 2 ∧ (1 : ℝ) / 2 ≤ 1
      ∧ (elbowQFor qIdentity (1 / 2)).mul (wristQFor qIdentity (1 / 2)) = qIdentity :=
  ⟨Quat.normSq_qIdentity, by norm_num, by norm_num,
    c5_elbow_wrist_compose qIdentity (1 / 2) Quat.normSq_qIdentity (by norm_num) (by norm_num)⟩

/-- C2 divergence evidence: rotating `WRIST_CONTROLLER_OFFSET` by a wrist
rotation (here 90 degrees about the x axis) differs from rotating it by
the in-place-inverted object that the source actually passes to
`applyQuaternion` after `wristQ.inverse()` has run, so `wristPos` does not
contain the claimed `wristQ * WRIST_CONTROLLER_OFFSET` term. -/
theorem c2_wrist_rotation_aliasing :
    WRIST_CONTROLLER_OFFSET.applyQuaternion (Quat.inverse qRotX90)
      ≠ WRIST_CONTROLLER_OFFSET.applyQuaternion qRotX90 := by
  have h2 : Real.sqrt 2 * Real.sqrt 2 = 2 := Real.mul_self_sqrt (by norm_num)
  intro h
  have hy := congrArg Vec3.y h
  simp [Vec3.applyQuaternion, WRIST_CONTROLLER_OFFSET, qRotX90,
    Quat.inverse, Quat.conjugate] at hy
  ring_nf at hy
  nlinarith [h2]
